import Mathlib

/-!
Verification development for the ulrichai front-end.

The repository is a TypeScript/React front-end.  The parts under scrutiny are

* the incremental stream decoder inside `handleSendMessage`
  (`src/frontend/src/components/Chat/index.tsx`, lines 114-199): a carry-over
  buffer is appended with each chunk, split on the newline character, the last
  (possibly incomplete) segment is held back, and every complete line that
  starts with the marker `"data: "` is JSON-parsed and dispatched on its
  `type` field, updating the local message state;
* the file-selection handlers `handleFileSelect` / `handleBatchFileSelect`
  and the batch-upload progress tracking of `handleBatchUpload`
  (`src/unnamed/part_000`).

JavaScript strings are modelled as `List Char` (chunks, lines, message
content), fallible JSON parsing as an abstract function
`List Char → Option SSERecord`, and the `setX` state updates as explicit
state passing.  All definitions are computable and follow the source line by
line.
-/

namespace UlrichAI

/-! ## The line splitter

`buffer += chunk; const lines = buffer.split('\n'); buffer = lines.pop() || ''`
(Chat/index.tsx lines 127-129).  `splitLines s` returns the complete lines of
`s` (everything up to the last newline, in order) together with the trailing
segment after the last newline — exactly the `lines` array after `pop` and the
new `buffer`. -/
/-- Prepend a character to the first line of an already-split tail: if the
tail has no complete line the character joins the open remainder. -/
def consLine (c : Char) (p : List (List Char) × List Char) :
    List (List Char) × List Char :=
  match p.1 with
  | [] => ([], c :: p.2)
  | l :: t => ((c :: l) :: t, p.2)

def splitLines : List Char → List (List Char) × List Char
  | [] => ([], [])
  | c :: rest =>
    if c = '\n' then
      ([] :: (splitLines rest).1, (splitLines rest).2)
    else
      consLine c (splitLines rest)

/-- A well-formed event stream in the sense of the specification: every line
is terminated by a line break, so splitting leaves no residue. -/
def wellFormedStream (s : List Char) : Prop := (splitLines s).2 = []

instance (s : List Char) : Decidable (wellFormedStream s) := by
  unfold wellFormedStream; infer_instance

/-! ## The chunk loop (line extraction view)

`while (true) { ... buffer += chunk; const lines = buffer.split('\n');
buffer = lines.pop() || ''; ... }` — one step per received chunk, carrying
`(emitted complete lines so far, buffer)`. -/

def streamChunkStep (acc : List (List Char) × List Char) (chunk : List Char) :
    List (List Char) × List Char :=
  let p := splitLines (acc.2 ++ chunk)
  (acc.1 ++ p.1, p.2)

/-- Run the decoding loop over a whole chunk sequence: the complete lines
emitted in order and the final (discarded) carry-over buffer. -/
def runDecoder (chunks : List (List Char)) : List (List Char) × List Char :=
  chunks.foldl streamChunkStep ([], [])

/-! ## Per-line decoding

A complete line is handled only when it starts with `"data: "`; the rest of
the line is JSON-parsed and the resulting record is dispatched on its `type`
field (Chat/index.tsx lines 131-177).  `JSON.parse` is an external platform
function; it is modelled as an abstract `parse : List Char → Option SSERecord`
(returning `none` when `JSON.parse` throws), where `SSERecord` holds the
fields the dispatch reads: `type`, `sources`, `content`, `error`.  A field
that is absent (`undefined` in JavaScript) is `none`. -/

structure Source where
  title : String
  filename : String
  content : String
  summary : Option String
  concepts : Option String
  score : Int
  document_id : Option String
  type : Option String
  file_type : Option String
  fileUrl : Option String
  chunk_id : Option String
  page_number : Option Int
  «section» : Option String
  start_time : Option Int
  end_time : Option Int
  duration : Option Int
  timestamp_display : Option String
  content_type : Option String
deriving DecidableEq

structure SSERecord where
  type : String
  sources : Option (List Source)
  content : Option (List Char)
  error : Option (List Char)
deriving DecidableEq

/-- The recognised event marker: the line must start with `"data: "` and the
payload is the line with the first six characters removed (`line.slice(6)`). -/
def dataMarker : List Char := ['d', 'a', 't', 'a', ':', ' ']

def isDataLine (line : List Char) : Bool := line.take 6 = dataMarker

/-- The five event kinds of the stream protocol, with the payloads the
dispatch extracts from the parsed record. -/
inductive StreamEvent where
  | sources (ss : List Source)
  | sourcesUpdate (ss : List Source)
  | content (text : Option (List Char))
  | done
  | error (msg : Option (List Char))
deriving DecidableEq

def recordEvent (r : SSERecord) : Option StreamEvent :=
  if r.type = "sources" then some (.sources (r.sources.getD []))
  else if r.type = "sources_update" then some (.sourcesUpdate (r.sources.getD []))
  else if r.type = "content" then some (.content r.content)
  else if r.type = "done" then some .done
  else if r.type = "error" then some (.error r.error)
  else none

/-- Decode one complete line into an event: `none` when the line does not
carry the `"data: "` marker, fails to parse, or has an unrecognised type. -/
def decodeLine (parse : List Char → Option SSERecord) (line : List Char) :
    Option StreamEvent :=
  if isDataLine line then (parse (line.drop 6)).bind recordEvent else none

/-- The ordered event sequence decoded from a chunk sequence. -/
def decodeStream (parse : List Char → Option SSERecord)
    (chunks : List (List Char)) : List StreamEvent :=
  (runDecoder chunks).1.filterMap (decodeLine parse)

/-! ## The message state updated by the dispatch

`handleSendMessage` threads three pieces of state through the loop: the local
variables `accumulatedContent` and `sources` and the React `messages` list
(only ever updated by mapping over it and rewriting the entry whose `id` is
the assistant message id).  Message `content` is a JavaScript string, modelled
as `List Char`. -/

inductive Role where
  | user
  | assistant
deriving DecidableEq

structure Message where
  id : String
  content : List Char
  role : Role
  timestamp : Nat
  isStreaming : Option Bool
  sources : Option (List Source)
deriving DecidableEq

structure ChatState where
  accumulatedContent : List Char
  sources : List Source
  messages : List Message
deriving DecidableEq

/-- `setMessages(prev => prev.map(msg => msg.id === assistantMessageId ? ... : msg))`. -/
def updateAssistant (aid : String) (f : Message → Message)
    (msgs : List Message) : List Message :=
  msgs.map fun m => if m.id = aid then f m else m

/-- `accumulatedContent += data.content`: JavaScript string concatenation
coerces an `undefined` field to the text `"undefined"`. -/
def jsAppendContent (acc : List Char) (c : Option (List Char)) : List Char :=
  acc ++ (match c with | some s => s | none => "undefined".toList)

/-- The fallback text the outer catch writes into the assistant message. -/
def errorFallbackText : List Char :=
  "Sorry, I encountered an error. Please try again.".toList

/-- The `data.type` dispatch (Chat/index.tsx lines 137-171).  The `'error'`
branch executes `throw new Error(data.error)`, modelled as `Except.error`;
every other branch completes normally. -/
def dispatchRecord (aid : String) (st : ChatState) (data : SSERecord) :
    Except (List Char) ChatState :=
  if data.type = "sources" then
    .ok { st with sources := data.sources.getD [] }
  else if data.type = "sources_update" then
    let ss := data.sources.getD []
    .ok { st with
          sources := ss,
          messages := updateAssistant aid
            (fun m => { m with sources := some ss }) st.messages }
  else if data.type = "content" then
    let acc := jsAppendContent st.accumulatedContent data.content
    .ok { st with
          accumulatedContent := acc,
          messages := updateAssistant aid
            (fun m => { m with
                        content := acc, isStreaming := some true,
                        sources := some st.sources }) st.messages }
  else if data.type = "done" then
    .ok { st with
          messages := updateAssistant aid
            (fun m => { m with isStreaming := some false }) st.messages }
  else if data.type = "error" then
    .error (data.error.getD "undefined".toList)
  else
    .ok st

/-- A record reaching the dispatch, as executed: the `try { ... } catch (e)`
around the parse-and-dispatch block catches the `'error'` branch's throw as
well, so a throwing dispatch leaves the state unchanged and the loop moves on
to the next line. -/
def applyRecord (aid : String) (st : ChatState) (data : SSERecord) : ChatState :=
  match dispatchRecord aid st data with
  | .ok st' => st'
  | .error _ => st

/-- One complete line (Chat/index.tsx lines 131-177): lines without the
`"data: "` marker are ignored; a parse failure is caught and skipped. -/
def processLine (parse : List Char → Option SSERecord) (aid : String)
    (st : ChatState) (line : List Char) : ChatState :=
  if isDataLine line then
    match parse (line.drop 6) with
    | none => st
    | some data => applyRecord aid st data
  else st

/-- One chunk of the read loop, threading the chat state and the carry-over
buffer. -/
def chatChunkStep (parse : List Char → Option SSERecord) (aid : String)
    (acc : ChatState × List Char) (chunk : List Char) : ChatState × List Char :=
  let p := splitLines (acc.2 ++ chunk)
  (p.1.foldl (processLine parse aid) acc.1, p.2)

/-- The whole read loop: fresh empty buffer, then one `chatChunkStep` per
chunk; at end of stream the loop just breaks, discarding the buffer. -/
def processStream (parse : List Char → Option SSERecord) (aid : String)
    (st : ChatState) (chunks : List (List Char)) : ChatState :=
  (chunks.foldl (chatChunkStep parse aid) (st, [])).1

/-- The assistant placeholder appended before the stream is read
(Chat/index.tsx lines 76-85). -/
def streamingMessage (aid : String) (ts : Nat) : Message :=
  { id := aid, content := [], role := .assistant, timestamp := ts,
    isStreaming := some true, sources := none }

/-- The chat state at the start of the read loop: fresh
`accumulatedContent`/`sources` locals, the placeholder appended to the
existing messages. -/
def initialChatState (prev : List Message) (aid : String) (ts : Nat) :
    ChatState :=
  { accumulatedContent := [], sources := [],
    messages := prev ++ [streamingMessage aid ts] }

/-! ## File selection (src/unnamed/part_000)

`handleFileSelect` (lines 329-353) and `handleBatchFileSelect` (lines
417-449).  Neither handler performs any network operation: they only read
`e.target.files`, compare sizes against `MAX_FILE_SIZE`, and update local
component state (`selectedFile`/`metadata` resp. `batchFiles`).  A `File` is
modelled by its name and byte size. -/

structure JsFile where
  name : List Char
  size : Nat
deriving DecidableEq

structure DocumentMetadata where
  displayName : List Char
  documentType : String
  documentSource : String
  humanCapabilityDomain : String
  author : String
  publicationDate : String
  description : String
  allowDownload : Bool
  showInViewer : Bool
deriving DecidableEq

structure UploadState where
  selectedFile : Option JsFile
  metadata : DocumentMetadata
deriving DecidableEq

/-- `const MAX_FILE_SIZE = 1610612736; // 1.5 GB in bytes`. -/
def MAX_FILE_SIZE : Nat := 1610612736

/-- `file.name.replace(/\.[^/.]+$/, '')`: remove a final dot-extension whose
characters contain neither a dot nor a slash; leave the name unchanged when
no such suffix exists. -/
def stripExtension (name : List Char) : List Char :=
  let rev := name.reverse
  let ext := rev.takeWhile (fun c => c ≠ '.' && c ≠ '/')
  match rev.dropWhile (fun c => c ≠ '.' && c ≠ '/') with
  | '.' :: rem => if ext.isEmpty then name else rem.reverse
  | _ => name

/-- `nameWithoutExt.replace(/[_-]/g, ' ')`. -/
def replaceSeparators (name : List Char) : List Char :=
  name.map (fun c => if c = '_' || c = '-' then ' ' else c)

def videoExtensionList : List (List Char) :=
  [".mp4".toList, ".webm".toList, ".mov".toList, ".avi".toList, ".mkv".toList]

/-- `/\.(mp4|webm|mov|avi|mkv)$/i.test(filename)` (lines 317-319). -/
def isVideoFile (filename : List Char) : Bool :=
  let lower := filename.map Char.toLower
  videoExtensionList.any (fun ext => lower.drop (lower.length - ext.length) == ext)

/-- `handleFileSelect` (lines 329-353): an oversized first file is rejected
with an alert and the input cleared, leaving the upload state untouched;
otherwise the file is stored and, when no display name has been entered yet,
the metadata display name and document type are derived from the file name. -/
def handleFileSelect (st : UploadState) (files : List JsFile) : UploadState :=
  match files with
  | [] => st
  | file :: _ =>
    if file.size > MAX_FILE_SIZE then
      st
    else
      let st' := { st with selectedFile := some file }
      if st.metadata.displayName.isEmpty then
        let nameWithoutExt := stripExtension file.name
        { st' with
          metadata := { st.metadata with
                        displayName := replaceSeparators nameWithoutExt,
                        documentType :=
                          if isVideoFile file.name then "video" else "article" } }
      else st'

structure BatchFileMetadata where
  file : JsFile
  filename : List Char
  displayName : List Char
  documentType : String
  documentSource : String
  humanCapabilityDomain : String
  author : String
  publicationDate : String
  description : String
  allowDownload : Bool
  showInViewer : Bool
deriving DecidableEq

/-- The body of the `for` loop of `handleBatchFileSelect` (lines 422-444):
an oversized file is alerted and skipped (`continue`); any other file yields
a fresh batch entry with default metadata. -/
def mkBatchEntry (file : JsFile) : Option BatchFileMetadata :=
  if file.size > MAX_FILE_SIZE then none
  else
    let nameWithoutExt := stripExtension file.name
    some { file := file, filename := file.name,
           displayName := replaceSeparators nameWithoutExt,
           documentType := if isVideoFile file.name then "video" else "article",
           documentSource := "institute", humanCapabilityDomain := "hr",
           author := "", publicationDate := "", description := "",
           allowDownload := true, showInViewer := true }

/-- `handleBatchFileSelect` (lines 417-449): the accepted entries are appended
to the existing batch list. -/
def handleBatchFileSelect (batchFiles : List BatchFileMetadata)
    (files : List JsFile) : List BatchFileMetadata :=
  if files.length > 0 then batchFiles ++ files.filterMap mkBatchEntry
  else batchFiles

/-! ## Batch upload progress (src/unnamed/part_000, lines 461-570)

`handleBatchUpload` registers XMLHttpRequest listeners.  Each
`setBatchProgress` call is modelled as one emitted `BatchProgress` value; a
run of the upload is the initial `Preparing` update, one update per
`progress` event with `lengthComputable`, then the updates of the single
terminal transport event in their timer order (`load` success: `Queued` 95,
then `Complete` 100, then the reset to idle).  The progress bar is rendered
only while `isActive` is true (part_000 line 1028). -/

structure BatchProgress where
  percent : Nat
  stage : String
  isActive : Bool
deriving DecidableEq

structure ProgressEvent where
  loaded : Nat
  total : Nat
  lengthComputable : Bool
deriving DecidableEq

/-- The terminal transport event of one XMLHttpRequest: `load` (with HTTP
status and whether `JSON.parse(xhr.responseText)` succeeds), `error`, or
`abort`. -/
inductive UploadOutcome where
  | load (status : Nat) (parseOk : Bool)
  | netError
  | abort
deriving DecidableEq

/-- `Math.round((event.loaded / event.total) * 90)` over the rationals
(lines 505-515); `Math.round` rounds half up. -/
def uploadPercent (loaded total : Nat) : Nat :=
  (180 * loaded + total) / (2 * total)

/-- The `progress` listener: updates only when `event.lengthComputable`. -/
def progressUpdate (ev : ProgressEvent) : Option BatchProgress :=
  if ev.lengthComputable then
    some { percent := uploadPercent ev.loaded ev.total, stage := "Uploading",
           isActive := true }
  else none

def idleProgress : BatchProgress := { percent := 0, stage := "", isActive := false }

/-- The `load`/`error`/`abort` listeners (lines 517-566), in the order the
updates are issued (the nested `setTimeout` bodies run after the enclosing
update). -/
def outcomeUpdates (o : UploadOutcome) : List BatchProgress :=
  match o with
  | .load status parseOk =>
    if 200 ≤ status ∧ status < 300 then
      if parseOk then
        [ { percent := 95, stage := "Queued", isActive := true },
          { percent := 100, stage := "Complete", isActive := true },
          idleProgress ]
      else [idleProgress]
    else [idleProgress]
  | .netError => [idleProgress]
  | .abort => [idleProgress]

/-- All `setBatchProgress` values of one batch upload, in order: the
`Preparing` update issued before `xhr.send` (line 475), the upload progress
updates, then the terminal updates. -/
def batchProgressTrace (events : List ProgressEvent) (o : UploadOutcome) :
    List BatchProgress :=
  { percent := 0, stage := "Preparing", isActive := true }
    :: (events.filterMap progressUpdate ++ outcomeUpdates o)

/-- The progress states that are actually displayed: the bar is rendered only
while `isActive` (line 1028). -/
def displayedTrace (events : List ProgressEvent) (o : UploadOutcome) :
    List BatchProgress :=
  (batchProgressTrace events o).filter (·.isActive)

/-! ## Helper lemmas and bridging results -/

/-- The `type` strings the dispatch recognises. -/
def recognizedType (t : String) : Bool :=
  t == "sources" || t == "sources_update" || t == "content" || t == "done" ||
    t == "error"

/-- The record (if any) a single line contributes to the dispatch. -/
def lineRecord (parse : List Char → Option SSERecord) (line : List Char) :
    Option SSERecord :=
  if isDataLine line then parse (line.drop 6) else none

/-- The records dispatched over a whole chunk sequence, in order. -/
def streamRecords (parse : List Char → Option SSERecord)
    (chunks : List (List Char)) : List SSERecord :=
  (runDecoder chunks).1.filterMap (lineRecord parse)

def sourcesRecord (ss : List Source) : SSERecord :=
  { type := "sources", sources := some ss, content := none, error := none }

def contentRecord (c : List Char) : SSERecord :=
  { type := "content", sources := none, content := some c, error := none }

def doneRecord : SSERecord :=
  { type := "done", sources := none, content := none, error := none }

/-! ## Concrete payloads

A finite table standing in for `JSON.parse` on the concrete inputs used in
the closed theorems below; it agrees with `JSON.parse` on exactly these
payload texts. -/

def sourcesPayload : List Char :=
  "\x7b\"type\": \"sources\", \"sources\": []\x7d".toList

def errorPayload : List Char :=
  "\x7b\"type\": \"error\", \"error\": \"boom\"\x7d".toList

def contentPayload : List Char :=
  "\x7b\"type\": \"content\", \"content\": \"hi\"\x7d".toList

def donePayload : List Char :=
  "\x7b\"type\": \"done\"\x7d".toList

def exampleParse (s : List Char) : Option SSERecord :=
  if s = sourcesPayload then
    some { type := "sources", sources := some [], content := none,
           error := none }
  else if s = errorPayload then
    some { type := "error", sources := none, content := none,
           error := some "boom".toList }
  else if s = contentPayload then
    some { type := "content", sources := none, content := some "hi".toList,
           error := none }
  else if s = donePayload then
    some { type := "done", sources := none, content := none, error := none }
  else none

/-- A chunk carrying an `error`-typed event line followed by a
`content`-typed event line. -/
def c1Chunk : List Char :=
  dataMarker ++ errorPayload ++ ['\n'] ++ dataMarker ++ contentPayload ++ ['\n']

/-! ## Concrete witness data -/

def cwStream : List Char := dataMarker ++ contentPayload ++ ['\n']

def c3Line : List Char := dataMarker ++ contentPayload

def c4Chunk : List Char :=
  dataMarker ++ sourcesPayload ++ ['\n'] ++ dataMarker ++ contentPayload
    ++ ['\n'] ++ dataMarker ++ donePayload ++ ['\n']

/-- The initial metadata state of the admin form (part_000 lines 50-60). -/
def emptyMetadata : DocumentMetadata :=
  { displayName := [], documentType := "article", documentSource := "institute",
    humanCapabilityDomain := "hr", author := "", publicationDate := "",
    description := "", allowDownload := true, showInViewer := true }

def uploadStateEx : UploadState :=
  { selectedFile := none, metadata := emptyMetadata }

def bigFile : JsFile := { name := "big.bin".toList, size := 1610612737 }

def smallFile : JsFile := { name := "intro_video.mp4".toList, size := 1024 }

def evs7 : List ProgressEvent :=
  [ { loaded := 1, total := 2, lengthComputable := true },
    { loaded := 2, total := 2, lengthComputable := true } ]

def evs8 : List ProgressEvent :=
  [ { loaded := 1, total := 2, lengthComputable := true } ]

/-! ## Theorems -/

theorem consLine_of_nil {p : List (List Char) × List Char} (h : p.1 = [])
    (c : Char) : consLine c p = ([], c :: p.2) := by
  simp [consLine, h]

theorem consLine_of_cons {p : List (List Char) × List Char} {l : List Char}
    {t : List (List Char)} (h : p.1 = l :: t) (c : Char) :
    consLine c p = ((c :: l) :: t, p.2) := by
  simp [consLine, h]

theorem splitLines_cons_newline (rest : List Char) :
    splitLines ('\n' :: rest) = ([] :: (splitLines rest).1, (splitLines rest).2) := by
  simp [splitLines]

theorem splitLines_cons_other {c : Char} (h : c ≠ '\n') (rest : List Char) :
    splitLines (c :: rest) = consLine c (splitLines rest) := by
  simp [splitLines, h]

theorem splitLines_no_newline {s : List Char} (h : '\n' ∉ s) :
    splitLines s = ([], s) := by
  induction s with
  | nil => rfl
  | cons c rest ih =>
    have hc : c ≠ '\n' := fun he => h (he ▸ List.mem_cons_self c rest)
    have hrest : '\n' ∉ rest := fun hm => h (List.mem_cons_of_mem c hm)
    rw [splitLines_cons_other hc, ih hrest, consLine_of_nil rfl]

theorem splitLines_snd_no_newline (s : List Char) : '\n' ∉ (splitLines s).2 := by
  induction s with
  | nil => simp [splitLines]
  | cons c rest ih =>
    by_cases hc : c = '\n'
    · subst hc
      rw [splitLines_cons_newline]
      exact ih
    · rw [splitLines_cons_other hc]
      rcases hp : (splitLines rest).1 with _ | ⟨l, t⟩
      · rw [consLine_of_nil hp]
        intro hm
        rcases List.mem_cons.mp hm with h1 | h2
        · exact hc h1.symm
        · exact ih h2
      · rw [consLine_of_cons hp]
        exact ih

theorem splitLines_append (a b : List Char) :
    splitLines (a ++ b) =
      ((splitLines a).1 ++ (splitLines ((splitLines a).2 ++ b)).1,
       (splitLines ((splitLines a).2 ++ b)).2) := by
  induction a with
  | nil => simp [splitLines]
  | cons c rest ih =>
    by_cases hc : c = '\n'
    · subst hc
      rw [List.cons_append, splitLines_cons_newline, ih, splitLines_cons_newline]
      simp
    · rw [List.cons_append, splitLines_cons_other hc, ih,
        splitLines_cons_other hc]
      rcases hp : (splitLines rest).1 with _ | ⟨l, t⟩
      · rw [consLine_of_nil hp]
        simp [splitLines_cons_other hc]
      · rw [consLine_of_cons hp]
        simp [consLine]

theorem splitLines_single_line {l : List Char} (h : '\n' ∉ l) :
    splitLines (l ++ ['\n']) = ([l], []) := by
  induction l with
  | nil => simp [splitLines]
  | cons c rest ih =>
    have hc : c ≠ '\n' := fun he => h (he ▸ List.mem_cons_self c rest)
    have hrest : '\n' ∉ rest := fun hm => h (List.mem_cons_of_mem c hm)
    rw [List.cons_append, splitLines_cons_other hc, ih hrest,
      consLine_of_cons rfl]

theorem foldl_streamChunkStep (chunks : List (List Char))
    (acc : List (List Char) × List Char) (h : '\n' ∉ acc.2) :
    chunks.foldl streamChunkStep acc =
      (acc.1 ++ (splitLines (acc.2 ++ chunks.flatten)).1,
       (splitLines (acc.2 ++ chunks.flatten)).2) := by
  induction chunks generalizing acc with
  | nil =>
    simp [splitLines_no_newline h]
  | cons chunk rest ih =>
    rw [List.foldl_cons,
      ih (streamChunkStep acc chunk)
        (by simpa [streamChunkStep] using
          splitLines_snd_no_newline (acc.2 ++ chunk))]
    simp only [streamChunkStep, List.flatten_cons]
    rw [← List.append_assoc acc.2 chunk rest.flatten,
      splitLines_append (acc.2 ++ chunk) rest.flatten]
    simp

theorem runDecoder_eq (chunks : List (List Char)) :
    runDecoder chunks = splitLines chunks.flatten := by
  unfold runDecoder
  rw [foldl_streamChunkStep chunks ([], []) (by simp)]
  simp

theorem decodeStream_eq (parse : List Char → Option SSERecord)
    (chunks : List (List Char)) :
    decodeStream parse chunks =
      (splitLines chunks.flatten).1.filterMap (decodeLine parse) := by
  unfold decodeStream
  rw [runDecoder_eq]

theorem foldl_chatChunkStep (parse : List Char → Option SSERecord)
    (aid : String) (chunks : List (List Char)) (acc : ChatState × List Char)
    (h : '\n' ∉ acc.2) :
    chunks.foldl (chatChunkStep parse aid) acc =
      ((splitLines (acc.2 ++ chunks.flatten)).1.foldl (processLine parse aid)
        acc.1,
       (splitLines (acc.2 ++ chunks.flatten)).2) := by
  induction chunks generalizing acc with
  | nil =>
    simp [splitLines_no_newline h]
  | cons chunk rest ih =>
    rw [List.foldl_cons,
      ih (chatChunkStep parse aid acc chunk)
        (by simpa [chatChunkStep] using
          splitLines_snd_no_newline (acc.2 ++ chunk))]
    simp only [chatChunkStep, List.flatten_cons]
    rw [← List.append_assoc acc.2 chunk rest.flatten,
      splitLines_append (acc.2 ++ chunk) rest.flatten]
    simp [List.foldl_append]

/-- The state reached by the stream loop is the per-line fold over the
complete lines of the concatenated text. -/
theorem processStream_eq (parse : List Char → Option SSERecord) (aid : String)
    (st : ChatState) (chunks : List (List Char)) :
    processStream parse aid st chunks =
      (splitLines chunks.flatten).1.foldl (processLine parse aid) st := by
  unfold processStream
  rw [foldl_chatChunkStep parse aid chunks (st, []) (by simp)]
  simp

theorem recordEvent_unrecognized {r : SSERecord}
    (h : recognizedType r.type = false) : recordEvent r = none := by
  simp only [recognizedType, Bool.or_eq_false_iff, beq_eq_false_iff_ne, ne_eq] at h
  obtain ⟨⟨⟨⟨h1, h2⟩, h3⟩, h4⟩, h5⟩ := h
  simp [recordEvent, h1, h2, h3, h4, h5]

theorem applyRecord_unrecognized (aid : String) (st : ChatState) {r : SSERecord}
    (h : recognizedType r.type = false) : applyRecord aid st r = st := by
  simp only [recognizedType, Bool.or_eq_false_iff, beq_eq_false_iff_ne, ne_eq] at h
  obtain ⟨⟨⟨⟨h1, h2⟩, h3⟩, h4⟩, h5⟩ := h
  simp [applyRecord, dispatchRecord, h1, h2, h3, h4, h5]

theorem processLine_eq (parse : List Char → Option SSERecord) (aid : String)
    (st : ChatState) (line : List Char) :
    processLine parse aid st line =
      match lineRecord parse line with
      | some r => applyRecord aid st r
      | none => st := by
  unfold processLine lineRecord
  by_cases h : isDataLine line
  · simp only [h, if_pos]
    cases parse (line.drop 6) <;> rfl
  · simp [h]

theorem foldl_processLine_records (parse : List Char → Option SSERecord)
    (aid : String) (lines : List (List Char)) (st : ChatState) :
    lines.foldl (processLine parse aid) st =
      (lines.filterMap (lineRecord parse)).foldl (applyRecord aid) st := by
  induction lines generalizing st with
  | nil => rfl
  | cons l ls ih =>
    rw [List.foldl_cons, processLine_eq]
    cases h : lineRecord parse l with
    | none => rw [List.filterMap_cons_none h]; exact ih st
    | some r => rw [List.filterMap_cons_some h, List.foldl_cons]; exact ih _

/-- The final chat state is the dispatch fold over the decoded records. -/
theorem processStream_records (parse : List Char → Option SSERecord)
    (aid : String) (st : ChatState) (chunks : List (List Char)) :
    processStream parse aid st chunks =
      (streamRecords parse chunks).foldl (applyRecord aid) st := by
  rw [processStream_eq]
  unfold streamRecords
  rw [runDecoder_eq, foldl_processLine_records]

/-! ## Claim theorems for the stream decoder -/

/-- Claim C2: chunking-invariance — for a well-formed event stream (every
line terminated by a line break), any two chunkings of the same text decode
to the identical ordered event sequence. -/
theorem c2_chunking_invariance (parse : List Char → Option SSERecord)
    (s : List Char) (chunks1 chunks2 : List (List Char))
    (h1 : chunks1.flatten = s) (h2 : chunks2.flatten = s)
    (hwf : wellFormedStream s) :
    decodeStream parse chunks1 = decodeStream parse chunks2 := by
  rw [decodeStream_eq, decodeStream_eq, h1, h2]

/-- Claim C3: a line split across two consecutive chunks is decoded into its
event exactly once — never dropped and never duplicated — because the
carry-over buffer defers the unterminated tail of the first chunk. -/
theorem c3_split_line_decoded_once (parse : List Char → Option SSERecord)
    (a b l : List Char) (ev : StreamEvent) (hnl : '\n' ∉ l)
    (hsplit : a ++ b = l ++ ['\n']) (hev : decodeLine parse l = some ev) :
    decodeStream parse [a, b] = [ev] := by
  rw [decodeStream_eq]
  have hflat : ([a, b] : List (List Char)).flatten = l ++ ['\n'] := by
    simpa using hsplit
  rw [hflat, splitLines_single_line hnl]
  simp [hev]

/-- Claim C5: the per-line step is total and non-fatal — a line without the
`"data: "` marker, an unparseable line, or a record of unrecognised type is
skipped without emitting an event or changing the state, and the fold over
the remaining lines continues unchanged. -/
theorem c5_malformed_line_skipped (parse : List Char → Option SSERecord)
    (aid : String) (st : ChatState) (line : List Char)
    (rest : List (List Char))
    (h : isDataLine line = false ∨ parse (line.drop 6) = none ∨
         ∃ r, parse (line.drop 6) = some r ∧ recognizedType r.type = false) :
    processLine parse aid st line = st ∧ decodeLine parse line = none ∧
    (line :: rest).foldl (processLine parse aid) st =
      rest.foldl (processLine parse aid) st := by
  have hskip : processLine parse aid st line = st := by
    rcases h with h | h | ⟨r, hr, hrec⟩
    · simp [processLine, h]
    · simp [processLine, h]
    · by_cases hd : isDataLine line
      · simp only [processLine, hd, if_pos, hr]
        exact applyRecord_unrecognized aid st hrec
      · simp [processLine, hd]
  have hev : decodeLine parse line = none := by
    rcases h with h | h | ⟨r, hr, hrec⟩
    · simp [decodeLine, h]
    · simp [decodeLine, h]
    · by_cases hd : isDataLine line
      · simp [decodeLine, hd, hr, recordEvent_unrecognized hrec]
      · simp [decodeLine, hd]
  exact ⟨hskip, hev, by rw [List.foldl_cons, hskip]⟩

/-- Claim C9: when the stream ends, residual text in the carry-over buffer —
a final line not terminated by a line break — is discarded: it contributes
no event and no state change.  Appending such an unterminated tail chunk
leaves both the decoded events and the final chat state unchanged. -/
theorem c9_residual_buffer_discarded (parse : List Char → Option SSERecord)
    (aid : String) (st : ChatState) (chunks : List (List Char))
    (r : List Char) (h : '\n' ∉ r) :
    decodeStream parse (chunks ++ [r]) = decodeStream parse chunks ∧
    processStream parse aid st (chunks ++ [r]) =
      processStream parse aid st chunks := by
  have hnl : '\n' ∉ (splitLines chunks.flatten).2 ++ r := by
    intro hm
    rcases List.mem_append.mp hm with h1 | h2
    · exact splitLines_snd_no_newline _ h1
    · exact h h2
  have hlines : (splitLines ((chunks ++ [r]).flatten)).1 =
      (splitLines chunks.flatten).1 := by
    rw [List.flatten_append]
    simp only [List.flatten_cons, List.flatten_nil, List.append_nil]
    rw [splitLines_append, splitLines_no_newline hnl]
    simp
  constructor
  · rw [decodeStream_eq, decodeStream_eq, hlines]
  · rw [processStream_eq, processStream_eq, hlines]

/-! ## Dispatch evaluation lemmas -/

theorem applyRecord_sources (aid : String) (st : ChatState) (ss : List Source) :
    applyRecord aid st (sourcesRecord ss) = { st with sources := ss } := by
  simp [applyRecord, dispatchRecord, sourcesRecord]

theorem applyRecord_content (aid : String) (st : ChatState) (c : List Char) :
    applyRecord aid st (contentRecord c) =
      { st with
        accumulatedContent := st.accumulatedContent ++ c,
        messages := updateAssistant aid
          (fun m => { m with
                      content := st.accumulatedContent ++ c,
                      isStreaming := some true,
                      sources := some st.sources }) st.messages } := by
  simp [applyRecord, dispatchRecord, contentRecord, jsAppendContent]

theorem applyRecord_done (aid : String) (st : ChatState) :
    applyRecord aid st doneRecord =
      { st with
        messages := updateAssistant aid
          (fun m => { m with isStreaming := some false }) st.messages } := by
  simp [applyRecord, dispatchRecord, doneRecord]

theorem updateAssistant_append_last {prev : List Message} {m : Message}
    {aid : String} (f : Message → Message)
    (hprev : ∀ m' ∈ prev, m'.id ≠ aid) (hm : m.id = aid) :
    updateAssistant aid f (prev ++ [m]) = prev ++ [f m] := by
  unfold updateAssistant
  rw [List.map_append]
  congr 1
  · calc prev.map (fun x => if x.id = aid then f x else x)
        = prev.map (fun x => x) :=
          List.map_congr_left fun a ha => if_neg (hprev a ha)
      _ = prev := List.map_id' prev
  · simp [hm]

/-- Folding `N` content records: the accumulated content and the assistant
message content both grow by the concatenation of the payloads, in order. -/
theorem contentRecord_fold (aid : String) (prev : List Message)
    (hprev : ∀ m' ∈ prev, m'.id ≠ aid) (cs : List (List Char)) :
    ∀ (st : ChatState) (m : Message), m.id = aid →
      st.messages = prev ++ [m] → m.content = st.accumulatedContent →
      ∃ m' : Message,
        ((cs.map contentRecord).foldl (applyRecord aid) st).messages
            = prev ++ [m'] ∧
        m'.id = aid ∧
        m'.content = st.accumulatedContent ++ cs.flatten ∧
        ((cs.map contentRecord).foldl (applyRecord aid) st).accumulatedContent
            = st.accumulatedContent ++ cs.flatten := by
  induction cs with
  | nil =>
    intro st m hid hmsgs hcontent
    exact ⟨m, by simpa using hmsgs, hid, by simp [hcontent], by simp⟩
  | cons c cs ih =>
    intro st m hid hmsgs hcontent
    rw [List.map_cons, List.foldl_cons, applyRecord_content]
    have hmsgs' : (updateAssistant aid
        (fun x => { x with
                    content := st.accumulatedContent ++ c,
                    isStreaming := some true,
                    sources := some st.sources }) st.messages)
        = prev ++ [{ m with
                     content := st.accumulatedContent ++ c,
                     isStreaming := some true,
                     sources := some st.sources }] := by
      rw [hmsgs]
      exact updateAssistant_append_last _ hprev hid
    obtain ⟨m', h1, h2, h3, h4⟩ :=
      ih { st with
           accumulatedContent := st.accumulatedContent ++ c,
           messages := updateAssistant aid
             (fun x => { x with
                         content := st.accumulatedContent ++ c,
                         isStreaming := some true,
                         sources := some st.sources }) st.messages }
        { m with
          content := st.accumulatedContent ++ c,
          isStreaming := some true,
          sources := some st.sources }
        hid hmsgs' rfl
    refine ⟨m', h1, h2, ?_, ?_⟩
    · rw [h3]
      simp
    · rw [h4]
      simp

/-! ## Claim theorems for the message state -/

/-- Claim C4: a stream decoding to a `sources` record, then `N` `content`
records, then a `done` record leaves the assistant message with
`isStreaming = false` and content equal to the concatenation of the content
payloads in arrival order. -/
theorem c4_final_message (parse : List Char → Option SSERecord)
    (chunks : List (List Char)) (aid : String) (prev : List Message)
    (ss : List Source) (cs : List (List Char)) (ts : Nat)
    (hprev : ∀ m' ∈ prev, m'.id ≠ aid)
    (hrecs : streamRecords parse chunks =
      sourcesRecord ss :: cs.map contentRecord ++ [doneRecord]) :
    ∃ m' : Message,
      (processStream parse aid (initialChatState prev aid ts) chunks).messages
          = prev ++ [m'] ∧
      m'.id = aid ∧ m'.isStreaming = some false ∧ m'.content = cs.flatten := by
  rw [processStream_records, hrecs]
  simp only [List.foldl_cons, List.foldl_append, List.foldl_nil]
  rw [applyRecord_sources]
  set st₁ : ChatState :=
    { initialChatState prev aid ts with sources := ss } with hst₁
  have hmsgs₁ : st₁.messages = prev ++ [streamingMessage aid ts] := rfl
  have hacc₁ : (streamingMessage aid ts).content = st₁.accumulatedContent := rfl
  obtain ⟨m', h1, h2, h3, h4⟩ :=
    contentRecord_fold aid prev hprev cs st₁ (streamingMessage aid ts) rfl
      hmsgs₁ hacc₁
  rw [applyRecord_done]
  refine ⟨{ m' with isStreaming := some false }, ?_, h2, rfl, ?_⟩
  · rw [h1, updateAssistant_append_last _ hprev h2]
  · show m'.content = cs.flatten
    have hacc : st₁.accumulatedContent = [] := rfl
    rw [h3, hacc, List.nil_append]

/-- Claim C10: handling a `sources` record alone leaves the messages state
completely unchanged — the source list only lands in the local variable —
and becomes visible on the assistant message once a subsequent `content`
record is processed. -/
theorem c10_sources_event_frame (aid : String) (st : ChatState)
    (r : SSERecord) (h : r.type = "sources") :
    (applyRecord aid st r).messages = st.messages ∧
    (applyRecord aid st r).accumulatedContent = st.accumulatedContent ∧
    (applyRecord aid st r).sources = r.sources.getD [] ∧
    (∀ c, (applyRecord aid (applyRecord aid st r) (contentRecord c)).messages
        = updateAssistant aid
            (fun m => { m with
                        content := st.accumulatedContent ++ c,
                        isStreaming := some true,
                        sources := some (r.sources.getD []) }) st.messages) := by
  have hr : applyRecord aid st r = { st with sources := r.sources.getD [] } := by
    simp [applyRecord, dispatchRecord, h]
  refine ⟨by rw [hr], by rw [hr], by rw [hr], fun c => ?_⟩
  rw [hr, applyRecord_content]

/-- Claim C1, evaluated on the code at the failing input: the `'error'`
branch's `throw new Error(data.error)` is caught by the per-line
`try/catch` (Chat/index.tsx line 172), so an `'error'`-typed event does
not terminate the stream and does not surface the fallback message — the
`content` event arriving after it is still processed, the assistant
message content is the content payload rather than `errorFallbackText`,
and `isStreaming` is still `true`. -/
theorem c1_error_event_swallowed :
    (processStream exampleParse "aid" (initialChatState [] "aid" 0)
        [c1Chunk]).messages
      = [{ id := "aid", content := "hi".toList, role := .assistant,
           timestamp := 0, isStreaming := some true, sources := some [] }]
    ∧ "hi".toList ≠ errorFallbackText
    ∧ (some true : Option Bool) ≠ some false := by
  decide

/-! ## Claim theorems for file selection -/

/-- Claim C6: both select handlers reject a file whose size exceeds
1,610,612,736 bytes — it is never added to the upload state (and the
handlers issue no network call: their bodies contain none) — while a file
of that size or less is accepted. -/
theorem c6_size_limit (st : UploadState) (f : JsFile) (fs : List JsFile)
    (bf : List BatchFileMetadata) (files : List JsFile) :
    (f.size > MAX_FILE_SIZE →
      handleFileSelect st (f :: fs) = st ∧ mkBatchEntry f = none) ∧
    (∀ e ∈ handleBatchFileSelect bf files,
      e ∈ bf ∨ ∃ g ∈ files, mkBatchEntry g = some e ∧ g.size ≤ MAX_FILE_SIZE) ∧
    (f.size ≤ MAX_FILE_SIZE →
      (handleFileSelect st (f :: fs)).selectedFile = some f ∧
      (f ∈ files → ∃ e ∈ handleBatchFileSelect bf files, e.file = f)) := by
  refine ⟨fun hbig => ⟨?_, ?_⟩, ?_, fun hsmall => ⟨?_, fun hmem => ?_⟩⟩
  · simp [handleFileSelect, hbig]
  · simp [mkBatchEntry, hbig]
  · intro e he
    unfold handleBatchFileSelect at he
    by_cases hlen : files.length > 0
    · rw [if_pos hlen] at he
      rcases List.mem_append.mp he with h1 | h2
      · exact Or.inl h1
      · obtain ⟨g, hg, hge⟩ := List.mem_filterMap.mp h2
        refine Or.inr ⟨g, hg, hge, ?_⟩
        by_contra hgt
        rw [mkBatchEntry, if_pos (by omega)] at hge
        exact Option.noConfusion hge
    · rw [if_neg hlen] at he
      exact Or.inl he
  · have hle : ¬ f.size > MAX_FILE_SIZE := Nat.not_lt.mpr hsmall
    by_cases hdn : st.metadata.displayName.isEmpty <;>
      simp [handleFileSelect, hle, hdn]
  · have hlen : files.length > 0 :=
      List.length_pos.mpr (List.ne_nil_of_mem hmem)
    have hle : ¬ f.size > MAX_FILE_SIZE := Nat.not_lt.mpr hsmall
    have hentry : mkBatchEntry f =
        some { file := f, filename := f.name,
               displayName := replaceSeparators (stripExtension f.name),
               documentType := if isVideoFile f.name then "video" else "article",
               documentSource := "institute", humanCapabilityDomain := "hr",
               author := "", publicationDate := "", description := "",
               allowDownload := true, showInViewer := true } := by
      simp [mkBatchEntry, hle]
    unfold handleBatchFileSelect
    rw [if_pos hlen]
    exact ⟨_, List.mem_append_right _ (List.mem_filterMap.mpr ⟨f, hmem, hentry⟩),
      rfl⟩

/-! ## Claim theorems for batch upload progress -/

theorem uploadPercent_le_90 {l t : Nat} (hl : l ≤ t) (ht : 0 < t) :
    uploadPercent l t ≤ 90 := by
  unfold uploadPercent
  have h2t : 0 < 2 * t := by omega
  have hlt : (180 * l + t) / (2 * t) < 91 := by
    rw [Nat.div_lt_iff_lt_mul h2t]
    omega
  omega

theorem uploadPercent_mono {l1 l2 : Nat} (t : Nat) (h : l1 ≤ l2) :
    uploadPercent l1 t ≤ uploadPercent l2 t :=
  Nat.div_le_div_right (by omega)

theorem outcomeUpdates_cases (o : UploadOutcome) :
    ((outcomeUpdates o).filter (·.isActive) = [] ∧
      ∀ bp ∈ outcomeUpdates o, bp.percent ≠ 100) ∨
    ((outcomeUpdates o).filter (·.isActive)
        = [{ percent := 95, stage := "Queued", isActive := true },
           { percent := 100, stage := "Complete", isActive := true }] ∧
      ∃ s, o = .load s true ∧ 200 ≤ s ∧ s < 300) := by
  cases o with
  | load s pOk =>
    by_cases h2xx : 200 ≤ s ∧ s < 300
    · cases pOk
      · have he : outcomeUpdates (.load s false) = [idleProgress] := by
          simp [outcomeUpdates, h2xx]
        rw [he]
        exact Or.inl (by decide)
      · have he : outcomeUpdates (.load s true) =
            [ { percent := 95, stage := "Queued", isActive := true },
              { percent := 100, stage := "Complete", isActive := true },
              idleProgress ] := by
          simp [outcomeUpdates, h2xx]
        rw [he]
        exact Or.inr ⟨by decide, s, rfl, h2xx.1, h2xx.2⟩
    · have he : outcomeUpdates (.load s pOk) = [idleProgress] := by
        simp [outcomeUpdates, h2xx]
      rw [he]
      exact Or.inl (by decide)
  | netError => exact Or.inl (by decide)
  | abort => exact Or.inl (by decide)

/-- Claim C7: over one batch upload run (with the transport reporting
non-decreasing byte counts bounded by a fixed positive total), the displayed
progress percent — the bar is rendered only while `isActive` — is
monotonically non-decreasing across successive state updates, and a state
with percent 100 is emitted only when the terminal event is a success
response (HTTP 2xx with parseable body): never during upload, after an
error, or after an abort. -/
theorem c7_progress_monotone (events : List ProgressEvent) (o : UploadOutcome)
    (T : Nat) (hT : 0 < T)
    (htot : ∀ ev ∈ events, ev.total = T ∧ ev.loaded ≤ ev.total)
    (hmono : List.Pairwise (fun a b => a.loaded ≤ b.loaded) events) :
    List.Chain' (fun a b => a.percent ≤ b.percent) (displayedTrace events o) ∧
    (∀ bp ∈ batchProgressTrace events o, bp.percent = 100 →
      ∃ s, o = .load s true ∧ 200 ≤ s ∧ s < 300) := by
  have hups : ∀ u ∈ events.filterMap progressUpdate,
      u.isActive = true ∧ u.percent ≤ 90 := by
    intro u hu
    obtain ⟨ev, hev, hevu⟩ := List.mem_filterMap.mp hu
    obtain ⟨hT', hle⟩ := htot ev hev
    unfold progressUpdate at hevu
    by_cases hc : ev.lengthComputable
    · rw [if_pos hc, Option.some.injEq] at hevu
      subst hevu
      exact ⟨rfl, uploadPercent_le_90 hle (by omega)⟩
    · rw [if_neg hc] at hevu
      exact Option.noConfusion hevu
  have hpw : List.Pairwise (fun a b : BatchProgress => a.percent ≤ b.percent)
      (events.filterMap progressUpdate) := by
    rw [List.pairwise_filterMap]
    refine hmono.imp_of_mem ?_
    intro a b ha hb hab u hu v hv
    obtain ⟨hTa, _⟩ := htot a ha
    obtain ⟨hTb, _⟩ := htot b hb
    rw [Option.mem_def] at hu hv
    unfold progressUpdate at hu hv
    by_cases hca : a.lengthComputable
    · rw [if_pos hca, Option.some.injEq] at hu
      subst hu
      by_cases hcb : b.lengthComputable
      · rw [if_pos hcb, Option.some.injEq] at hv
        subst hv
        show uploadPercent a.loaded a.total ≤ uploadPercent b.loaded b.total
        rw [hTa, hTb]
        exact uploadPercent_mono T hab
      · rw [if_neg hcb] at hv
        exact Option.noConfusion hv
    · rw [if_neg hca] at hu
      exact Option.noConfusion hu
  have hdisp : displayedTrace events o =
      { percent := 0, stage := "Preparing", isActive := true }
        :: (events.filterMap progressUpdate
            ++ (outcomeUpdates o).filter (·.isActive)) := by
    unfold displayedTrace batchProgressTrace
    rw [List.filter_cons, List.filter_append]
    have hself : (events.filterMap progressUpdate).filter (·.isActive)
        = events.filterMap progressUpdate :=
      List.filter_eq_self.mpr fun u hu => by
        simpa using (hups u hu).1
    simp [hself]
  have htail := outcomeUpdates_cases o
  constructor
  · apply List.Pairwise.chain'
    rw [hdisp, List.pairwise_cons]
    constructor
    · intro x _
      exact Nat.zero_le _
    · rw [List.pairwise_append]
      refine ⟨hpw, ?_, ?_⟩
      · rcases htail with ⟨he, _⟩ | ⟨he, _⟩ <;> rw [he]
        · exact List.Pairwise.nil
        · decide
      · intro a ha b hb
        have h90 := (hups a ha).2
        rcases htail with ⟨he, _⟩ | ⟨he, _⟩
        · rw [he] at hb
          exact absurd hb (List.not_mem_nil b)
        · rw [he] at hb
          rcases List.mem_cons.mp hb with rfl | hb'
          · show a.percent ≤ 95
            omega
          · rcases List.mem_cons.mp hb' with rfl | hb''
            · show a.percent ≤ 100
              omega
            · exact absurd hb'' (List.not_mem_nil b)
  · intro bp hbp h100
    unfold batchProgressTrace at hbp
    rcases List.mem_cons.mp hbp with rfl | hbp'
    · exact absurd h100 (by decide)
    · rcases List.mem_append.mp hbp' with hup | hout
      · have := (hups bp hup).2
        omega
      · rcases htail with ⟨_, hne⟩ | ⟨_, hex⟩
        · exact absurd h100 (hne bp hout)
        · exact hex

/-- Claim C8: the batch progress tracker maps each byte-level ratio
`loaded/total` into the 0–90 sub-range of the display scale (the tail above
90 is reserved for post-upload processing), and on a success response the
emitted updates pass through the stages Uploading, then Queued (95), then
Complete (100), in that order, before the reset to the idle state. -/
theorem c8_success_stage_sequence (events : List ProgressEvent) (status : Nat)
    (h2 : 200 ≤ status) (h3 : status < 300)
    (htot : ∀ ev ∈ events, ev.loaded ≤ ev.total ∧ 0 < ev.total) :
    batchProgressTrace events (.load status true)
      = { percent := 0, stage := "Preparing", isActive := true }
        :: events.filterMap progressUpdate
        ++ [ { percent := 95, stage := "Queued", isActive := true },
             { percent := 100, stage := "Complete", isActive := true },
             idleProgress ] ∧
    (∀ ev ∈ events, ev.lengthComputable = true →
      progressUpdate ev = some { percent := uploadPercent ev.loaded ev.total,
                                 stage := "Uploading", isActive := true } ∧
      uploadPercent ev.loaded ev.total ≤ 90) := by
  constructor
  · unfold batchProgressTrace
    have he : outcomeUpdates (.load status true) =
        [ { percent := 95, stage := "Queued", isActive := true },
          { percent := 100, stage := "Complete", isActive := true },
          idleProgress ] := by
      simp [outcomeUpdates, h2, h3]
    rw [he, List.cons_append]
  · intro ev hev hcomp
    exact ⟨by simp [progressUpdate, hcomp],
      uploadPercent_le_90 (htot ev hev).1 (htot ev hev).2⟩

/-! ## Witnesses: concrete instances of each hypothesised theorem -/

/-- Witness for C2 at a concrete stream and two concrete chunkings. -/
theorem c2_chunking_invariance_witness :
    ([cwStream] : List (List Char)).flatten = cwStream ∧
    ([cwStream.take 10, cwStream.drop 10] : List (List Char)).flatten
      = cwStream ∧
    wellFormedStream cwStream ∧
    decodeStream exampleParse [cwStream] =
      decodeStream exampleParse [cwStream.take 10, cwStream.drop 10] :=
  ⟨by decide, by decide, by decide,
   c2_chunking_invariance exampleParse cwStream [cwStream]
     [cwStream.take 10, cwStream.drop 10] (by decide) (by decide) (by decide)⟩

/-- Witness for C3 at a concrete line split after ten characters. -/
theorem c3_split_line_decoded_once_witness :
    '\n' ∉ c3Line ∧
    c3Line.take 10 ++ (c3Line.drop 10 ++ ['\n']) = c3Line ++ ['\n'] ∧
    decodeLine exampleParse c3Line
      = some (.content (some "hi".toList)) ∧
    decodeStream exampleParse [c3Line.take 10, c3Line.drop 10 ++ ['\n']]
      = [.content (some "hi".toList)] :=
  ⟨by decide, by decide, by decide,
   c3_split_line_decoded_once exampleParse (c3Line.take 10)
     (c3Line.drop 10 ++ ['\n']) c3Line (.content (some "hi".toList))
     (by decide) (by decide) (by decide)⟩

/-- Witness for C4 at a concrete three-event stream. -/
theorem c4_final_message_witness :
    (∀ m' ∈ ([] : List Message), m'.id ≠ "aid") ∧
    streamRecords exampleParse [c4Chunk]
      = sourcesRecord [] :: ([ "hi".toList ] : List (List Char)).map contentRecord
          ++ [doneRecord] ∧
    ∃ m' : Message,
      (processStream exampleParse "aid" (initialChatState [] "aid" 0)
          [c4Chunk]).messages = [] ++ [m'] ∧
      m'.id = "aid" ∧ m'.isStreaming = some false ∧
      m'.content = ([ "hi".toList ] : List (List Char)).flatten :=
  ⟨by simp, by decide,
   c4_final_message exampleParse [c4Chunk] "aid" [] [] ["hi".toList] 0
     (by simp) (by decide)⟩

/-- Witness for C5 at a concrete line without the event marker. -/
theorem c5_malformed_line_skipped_witness :
    (isDataLine "oops".toList = false ∨
      exampleParse ("oops".toList.drop 6) = none ∨
      ∃ r, exampleParse ("oops".toList.drop 6) = some r ∧
        recognizedType r.type = false) ∧
    (processLine exampleParse "aid" (initialChatState [] "aid" 0) "oops".toList
        = initialChatState [] "aid" 0 ∧
      decodeLine exampleParse "oops".toList = none ∧
      ("oops".toList :: ([] : List (List Char))).foldl
          (processLine exampleParse "aid") (initialChatState [] "aid" 0)
        = ([] : List (List Char)).foldl (processLine exampleParse "aid")
            (initialChatState [] "aid" 0)) :=
  ⟨Or.inl (by decide),
   c5_malformed_line_skipped exampleParse "aid" (initialChatState [] "aid" 0)
     "oops".toList [] (Or.inl (by decide))⟩

/-- Witness for C6 at a concrete oversized file and a concrete accepted
file. -/
theorem c6_size_limit_witness :
    (handleFileSelect uploadStateEx [bigFile] = uploadStateEx ∧
      mkBatchEntry bigFile = none) ∧
    ((handleFileSelect uploadStateEx [smallFile]).selectedFile
        = some smallFile ∧
      (smallFile ∈ [bigFile, smallFile] →
        ∃ e ∈ handleBatchFileSelect [] [bigFile, smallFile],
          e.file = smallFile)) :=
  ⟨(c6_size_limit uploadStateEx bigFile [] [] [bigFile, smallFile]).1
      (by decide),
   (c6_size_limit uploadStateEx smallFile [] [] [bigFile, smallFile]).2.2
      (by decide)⟩

/-- Witness for C7 at a concrete two-event successful run. -/
theorem c7_progress_monotone_witness :
    (0 : Nat) < 2 ∧
    (∀ ev ∈ evs7, ev.total = 2 ∧ ev.loaded ≤ ev.total) ∧
    List.Pairwise (fun a b => a.loaded ≤ b.loaded) evs7 ∧
    (List.Chain' (fun a b => a.percent ≤ b.percent)
        (displayedTrace evs7 (.load 200 true)) ∧
      (∀ bp ∈ batchProgressTrace evs7 (.load 200 true), bp.percent = 100 →
        ∃ s, (UploadOutcome.load 200 true) = .load s true ∧
          200 ≤ s ∧ s < 300)) :=
  ⟨by decide, by decide, by decide,
   c7_progress_monotone evs7 (.load 200 true) 2 (by decide) (by decide)
     (by decide)⟩

/-- Witness for C8 at a concrete one-event successful run. -/
theorem c8_success_stage_sequence_witness :
    200 ≤ 201 ∧ 201 < 300 ∧
    (∀ ev ∈ evs8, ev.loaded ≤ ev.total ∧ 0 < ev.total) ∧
    (batchProgressTrace evs8 (.load 201 true)
        = { percent := 0, stage := "Preparing", isActive := true }
          :: evs8.filterMap progressUpdate
          ++ [ { percent := 95, stage := "Queued", isActive := true },
               { percent := 100, stage := "Complete", isActive := true },
               idleProgress ] ∧
      (∀ ev ∈ evs8, ev.lengthComputable = true →
        progressUpdate ev
            = some { percent := uploadPercent ev.loaded ev.total,
                     stage := "Uploading", isActive := true } ∧
        uploadPercent ev.loaded ev.total ≤ 90)) :=
  ⟨by decide, by decide, by decide,
   c8_success_stage_sequence evs8 201 (by decide) (by decide) (by decide)⟩

/-- Witness for C9 at a concrete stream with an unterminated tail chunk. -/
theorem c9_residual_buffer_discarded_witness :
    '\n' ∉ dataMarker ∧
    decodeStream exampleParse ([cwStream] ++ [dataMarker]) =
      decodeStream exampleParse [cwStream] ∧
    processStream exampleParse "aid" (initialChatState [] "aid" 0)
        ([cwStream] ++ [dataMarker]) =
      processStream exampleParse "aid" (initialChatState [] "aid" 0)
        [cwStream] :=
  ⟨by decide,
   (c9_residual_buffer_discarded exampleParse "aid"
      (initialChatState [] "aid" 0) [cwStream] dataMarker (by decide)).1,
   (c9_residual_buffer_discarded exampleParse "aid"
      (initialChatState [] "aid" 0) [cwStream] dataMarker (by decide)).2⟩

/-- Witness for C10 at a concrete `sources` record. -/
theorem c10_sources_event_frame_witness :
    (sourcesRecord []).type = "sources" ∧
    ((applyRecord "aid" (initialChatState [] "aid" 0)
        (sourcesRecord [])).messages
          = (initialChatState [] "aid" 0).messages ∧
      (applyRecord "aid" (initialChatState [] "aid" 0)
        (sourcesRecord [])).accumulatedContent
          = (initialChatState [] "aid" 0).accumulatedContent ∧
      (applyRecord "aid" (initialChatState [] "aid" 0)
        (sourcesRecord [])).sources = (sourcesRecord []).sources.getD [] ∧
      (∀ c, (applyRecord "aid"
          (applyRecord "aid" (initialChatState [] "aid" 0) (sourcesRecord []))
          (contentRecord c)).messages
        = updateAssistant "aid"
            (fun m => { m with
                        content :=
                          (initialChatState [] "aid" 0).accumulatedContent ++ c,
                        isStreaming := some true,
                        sources := some ((sourcesRecord []).sources.getD []) })
            (initialChatState [] "aid" 0).messages)) :=
  ⟨rfl, c10_sources_event_frame "aid" (initialChatState [] "aid" 0)
    (sourcesRecord []) rfl⟩

end UlrichAI
